import Mathlib

/-!
# Verification of the `upl` fetch interception pipeline

Shallow embedding of `src/modules/hooks/fetch.ts`: the matcher registry
(`hookPre`, `hookPost`, `hookTextPre`, `hookTextPost`), URL resolution
(`findMatchingEntry`), and the intercepting transport (`hookedFetch`).

JS objects are modelled as immutable Lean structures with explicit state
passing; promises are modelled by the three observable outcomes `ok`
(resolved), `rejected`, and `hang` (never settles), each carrying the
pipeline state (ambient `input`/`init` variables, the trace of real
transport invocations, a fresh-id counter for physical `Response`
identity, and the `console.error` log).
-/

namespace UPL

/-- A request body: either textual (a JS string) or non-textual
(anything whose `typeof` is not `'string'`, collapsed to an opaque tag). -/
inductive Body where
  | text (s : String)
  | binary (tag : Nat)
deriving DecidableEq

/-- Headers, modelled as an association list of name/value pairs. -/
abbrev HeadersV := List (String × String)

/-- The `RequestInit` options object (`init` parameter): only the fields
the source reads or writes (`method`, `headers`, `body`). -/
structure ReqInit where
  method : Option String := none
  headers : Option HeadersV := none
  body : Option Body := none
deriving DecidableEq

/-- The outcome of `await clonedRequest.text()`: the text, or a thrown
error (caught and logged by `hookedFetch`). -/
inductive BodyRead where
  | ok (s : String)
  | failed
deriving DecidableEq

/-- A JS `Request` object, restricted to the properties
`hookedFetch` reads: `url`, `method`, `headers`, and the outcome of
`clone().text()`. -/
structure RequestObj where
  url : String
  method : String
  headers : HeadersV
  textResult : BodyRead
deriving DecidableEq

/-- The `input` argument of `fetch`: a string, a `URL` object
(carrying its `toString()`), a `Request` object, or any other value
(carrying its `String(input)` coercion). -/
inductive FetchInput where
  | str (s : String)
  | url (s : String)
  | request (r : RequestObj)
  | other (s : String)
deriving DecidableEq

/-- A `Response` object: a physical identity token (distinguishing the
original from its clones), the underlying body stream's text, and the
optional value installed by overriding the `text` accessor
(`hookTextPost` assigns `response.text = ...`). The underlying stream is
unaffected by such an override, so `clone()` never copies it. -/
structure Response where
  id : Nat
  bodyText : String
  textOverride : Option String := none
deriving DecidableEq

/-- What `await response.text()` yields: the override if one was
installed, else the underlying stream's text. -/
def readText (r : Response) : String :=
  r.textOverride.getD r.bodyText

/-- A thrown/rejected JS error value. -/
inductive Err where
  | typeErr
  | userErr (tag : Nat)
deriving DecidableEq

/-- Behaviours of a `HookTextPreCallback` `(body, original) => ...`:
forward the body unchanged, replace it, never invoke `original`
(so the wrapping promise never settles), or throw synchronously. -/
inductive TextPreCb where
  | identity
  | const (s : String)
  | noCall
  | throwErr (e : Err)

/-- Behaviours of a `HookPreCallback` `(input, init, original) => ...`:
resolve with a mock response without calling `original`; never settle;
call `original` exactly once on a rewritten `(input, init)` pair and
resolve with its response; throw; or the raw callback that
`hookTextPre` registers (its semantics are interpreted from
`fetch.ts` lines 86–108 by `runPreCb`). -/
inductive PreCb where
  | short (mockBody : String)
  | hang
  | mutate (f : FetchInput → Option ReqInit → FetchInput × Option ReqInit)
  | throwErr (e : Err)
  | textPre (t : TextPreCb)

/-- Behaviours of a `HookTextPostCallback` `(text, original) => ...`:
forward the text unchanged or transform it (always calling `original`). -/
inductive TextPostCb where
  | identity
  | transform (f : String → String)

/-- Behaviours of a `HookPostCallback` `(response, original) => ...`:
mutate the shared cloned response in place and then call (or not call)
the continuation, or the raw callback that `hookTextPost` registers
(interpreted from `fetch.ts` lines 117–132 by `runPostChain`). -/
inductive PostCb where
  | mutate (f : Response → Response) (callNext : Bool)
  | textPost (t : TextPostCb)

/-- A hook entry: the per-matcher ordered callback lists
(`fetch.ts` lines 13–16). -/
structure HookEntry where
  pre_callback : List PreCb
  post_callback : List PostCb

/-- A `RegExp` value: `source` stands for its `toString()` representation
(used by the registry for structural deduplication) and `test` for its
`test(url)` method. -/
structure Pattern where
  source : String
  test : String → Bool

/-- The module-level mutable state of `fetch.ts`: the exact-string map
`_entriesText` (a JS `Map`, i.e. an insertion-ordered association list
with unique keys), the pattern list `_entriesRegex`, and the state of
the one-shot installer (`_initOnce` plus the `window.fetch`
substitution counter). -/
structure Registry where
  entriesText : List (String × HookEntry) := []
  entriesRegex : List (Pattern × HookEntry) := []
  onceFired : Bool := false
  installCount : Nat := 0

/-- The registry at module load: empty tables, installer not yet fired. -/
def emptyRegistry : Registry := {}

/-- Modelled from the spec: the `Once` utility (`src/utils/once`, absent
from the source tree) wraps `init` (which performs
`window.fetch = hookedFetch`); per the spec, "a one-shot trigger (fires
on first use across all registration functions, not per-function)
performs the substitution exactly once per process lifetime".
`trigger()` therefore runs the wrapped installer only on its first call;
`installCount` counts how many times the substitution has happened. -/
def triggerInit (st : Registry) : Registry :=
  if st.onceFired then st
  else { st with onceFired := true, installCount := st.installCount + 1 }

/-- `Map.get`: first (unique) binding for a key, `none` when absent. -/
def mapGet : List (String × HookEntry) → String → Option HookEntry
  | [], _ => none
  | (k, v) :: rest, key => if k = key then some v else mapGet rest key

/-- In-place replacement of the entry bound to a key (models mutating
the entry object obtained from the `Map`): position preserved. -/
def mapUpdate : List (String × HookEntry) → String → HookEntry → List (String × HookEntry)
  | [], _, _ => []
  | (k, v) :: rest, key, nv =>
      if k = key then (k, nv) :: rest else (k, v) :: mapUpdate rest key nv

/-- `_entriesRegex.find(x => x[0].toString() === endpoint.toString())`:
first pair whose pattern has the given source representation. -/
def regexGet : List (Pattern × HookEntry) → String → Option (Pattern × HookEntry)
  | [], _ => none
  | (p, e) :: rest, src => if p.source = src then some (p, e) else regexGet rest src

/-- In-place replacement of the entry of the first pattern with the
given source (models mutating `existingEntry[1]`). -/
def regexUpdate : List (Pattern × HookEntry) → String → HookEntry → List (Pattern × HookEntry)
  | [], _, _ => []
  | (p, e) :: rest, src, nv =>
      if p.source = src then (p, nv) :: rest else (p, e) :: regexUpdate rest src nv

/-- The `endpoint` argument of the registration functions: a string, a
`RegExp`, or any other value (which fails the two runtime type tests). -/
inductive Endpoint where
  | str (s : String)
  | pattern (p : Pattern)
  | invalid (tag : String)

/-- A synchronously thrown registration error
(`throw new TypeError('Invalid endpoint type!')`). -/
inductive RegErr where
  | typeError
deriving DecidableEq

/-- `hookPre` (`fetch.ts` lines 29–50): trigger the installer, then
append the callback to the matching entry's `pre_callback` list,
creating the entry if absent; throw `TypeError` on an invalid endpoint.
The thrown error is returned alongside the post-call state, because in
JS the `_initOnce.trigger()` side effect survives the throw. -/
def hookPre (ep : Endpoint) (cb : PreCb) (st : Registry) : Except RegErr Unit × Registry :=
  let st := triggerInit st
  match ep with
  | .str s =>
      match mapGet st.entriesText s with
      | none =>
          (.ok (), { st with entriesText :=
            (st.entriesText ++ [(s, { pre_callback := [cb], post_callback := [] })]) })
      | some e =>
          (.ok (), { st with entriesText :=
            (mapUpdate st.entriesText s { e with pre_callback := e.pre_callback ++ [cb] }) })
  | .pattern p =>
      match regexGet st.entriesRegex p.source with
      | none =>
          (.ok (), { st with entriesRegex :=
            (st.entriesRegex ++ [(p, { pre_callback := [cb], post_callback := [] })]) })
      | some pe =>
          (.ok (), { st with entriesRegex :=
            (regexUpdate st.entriesRegex p.source
              { pe.2 with pre_callback := pe.2.pre_callback ++ [cb] }) })
  | .invalid _ => (.error .typeError, st)

/-- `hookPost` (`fetch.ts` lines 57–78): same shape as `hookPre` but
appending to `post_callback`. -/
def hookPost (ep : Endpoint) (cb : PostCb) (st : Registry) : Except RegErr Unit × Registry :=
  let st := triggerInit st
  match ep with
  | .str s =>
      match mapGet st.entriesText s with
      | none =>
          (.ok (), { st with entriesText :=
            (st.entriesText ++ [(s, { pre_callback := [], post_callback := [cb] })]) })
      | some e =>
          (.ok (), { st with entriesText :=
            (mapUpdate st.entriesText s { e with post_callback := e.post_callback ++ [cb] }) })
  | .pattern p =>
      match regexGet st.entriesRegex p.source with
      | none =>
          (.ok (), { st with entriesRegex :=
            (st.entriesRegex ++ [(p, { pre_callback := [], post_callback := [cb] })]) })
      | some pe =>
          (.ok (), { st with entriesRegex :=
            (regexUpdate st.entriesRegex p.source
              { pe.2 with post_callback := pe.2.post_callback ++ [cb] }) })
  | .invalid _ => (.error .typeError, st)

/-- `hookTextPre` (`fetch.ts` lines 85–109): registers, through
`hookPre`, the wrapping raw pre-callback; the wrapper's behaviour is
interpreted by `runPreCb` on the `PreCb.textPre` constructor. -/
def hookTextPre (ep : Endpoint) (t : TextPreCb) (st : Registry) : Except RegErr Unit × Registry :=
  hookPre ep (.textPre t) st

/-- `hookTextPost` (`fetch.ts` lines 116–133): registers, through
`hookPost`, the wrapping raw post-callback; the wrapper's behaviour is
interpreted by `runPostChain` on the `PostCb.textPost` constructor. -/
def hookTextPost (ep : Endpoint) (t : TextPostCb) (st : Registry) : Except RegErr Unit × Registry :=
  hookPost ep (.textPost t) st

/-- One call to a public registration function. -/
inductive RegCall where
  | pre (ep : Endpoint) (cb : PreCb)
  | post (ep : Endpoint) (cb : PostCb)
  | textPre (ep : Endpoint) (t : TextPreCb)
  | textPost (ep : Endpoint) (t : TextPostCb)

/-- Execute one registration call, keeping the post-call module state
(in JS a thrown `TypeError` propagates to the registrant but the
module-level mutations made before the throw persist). -/
def applyReg (st : Registry) (c : RegCall) : Registry :=
  match c with
  | .pre ep cb => (hookPre ep cb st).2
  | .post ep cb => (hookPost ep cb st).2
  | .textPre ep t => (hookTextPre ep t st).2
  | .textPost ep t => (hookTextPost ep t st).2

/-- `_entriesRegex.find(x => x[0].test(url))`
(`fetch.ts` line 148): first pattern entry matching the URL. -/
def regexFindMatch : List (Pattern × HookEntry) → String → Option HookEntry
  | [], _ => none
  | (p, e) :: rest, url => if p.test url then some e else regexFindMatch rest url

/-- `findMatchingEntry` (`fetch.ts` lines 140–150): exact string lookup
first, then first-match scan over the pattern entries. -/
def findMatchingEntry (reg : Registry) (url : String) : Option HookEntry :=
  match mapGet reg.entriesText url with
  | some e => some e
  | none => regexFindMatch reg.entriesRegex url

/-- The state of one `hookedFetch` execution: the function's mutable
`input` and `init` variables (reassigned by the `original` closure of
the pre-chain), the ordered trace of `_originalFetch` invocations with
the arguments each one received, a counter supplying fresh physical
identities for responses, and the accumulated `console.error` log. -/
structure PipeState where
  input : FetchInput
  init : Option ReqInit
  trace : List (FetchInput × Option ReqInit) := []
  nextId : Nat := 0
  errLog : List String := []
deriving DecidableEq

/-- The observable outcome of an async computation producing a
`Response`: the promise resolved, rejected, or never settles. The
pipeline state is carried in every case because transport invocations
and log lines that happened before a rejection or a stall are still
externally observable. -/
inductive PResult where
  | ok (r : Response) (s : PipeState)
  | rejected (e : Err) (s : PipeState)
  | hang (s : PipeState)
deriving DecidableEq

/-- The real network: what body the server would answer for given
transport arguments. `_originalFetch` is modelled as recording its
arguments in the trace and producing a fresh `Response` with this body. -/
abbrev Net := FetchInput → Option ReqInit → String

/-- Allocate a `Response` with a fresh physical identity. -/
def freshResponse (b : String) (st : PipeState) : Response × PipeState :=
  ({ id := st.nextId, bodyText := b }, { st with nextId := st.nextId + 1 })

/-- `_originalFetch(input, init)` on the current ambient arguments:
records the invocation and yields the network's response. -/
def transportCall (net : Net) (st : PipeState) : Response × PipeState :=
  freshResponse (net st.input st.init)
    { st with trace := st.trace ++ [(st.input, st.init)] }

/-- The `original` closure handed to each pre-callback
(`fetch.ts` lines 213–217): overwrite the ambient `input`/`init`
variables with the supplied pair, then call `_originalFetch`. -/
def callOriginal (net : Net) (i : FetchInput) (ii : Option ReqInit) (st : PipeState) :
    Response × PipeState :=
  transportCall net { st with input := i, init := ii }

/-- `init?.body !== undefined && typeof init.body !== 'string'`
(`fetch.ts` line 87). -/
def hasNonTextBody : Option ReqInit → Bool
  | some ii =>
      match ii.body with
      | some (.binary _) => true
      | _ => false
  | none => false

/-- `init?.body as string | undefined` once the non-text case has been
excluded. -/
def bodyAsText : Option ReqInit → Option String
  | some ii =>
      match ii.body with
      | some (.text s) => some s
      | _ => none
  | none => none

/-- `init.body = newBody`. -/
def setBody (ii : ReqInit) (b : String) : ReqInit :=
  { ii with body := some (.text b) }

/-- The `_original` continuation built by `hookTextPre`
(`fetch.ts` lines 93–100): if a new body was supplied and `init`
exists, substitute the body; then call the raw continuation on the
(possibly updated) ambient pair. -/
def textPreContinue (net : Net) (newBody : Option String) (st : PipeState) :
    Response × PipeState :=
  let init' : Option ReqInit :=
    match newBody, st.init with
    | some b, some ii => some (setBody ii b)
    | _, _ => st.init
  callOriginal net st.input init' st

/-- The promise-executor body of the wrapper `hookTextPre` registers
(`fetch.ts` lines 92–107): invoke the user callback on
`init?.body`; the promise resolves when the user callback invokes
`_original`, never settles if it returns without doing so, and rejects
if it throws. -/
def runTextPreBody (net : Net) (t : TextPreCb) (st : PipeState) : PResult :=
  match t with
  | .identity =>
      let (r, st') := textPreContinue net (bodyAsText st.init) st
      .ok r st'
  | .const b =>
      let (r, st') := textPreContinue net (some b) st
      .ok r st'
  | .noCall => .hang st
  | .throwErr e => .rejected e st

/-- `console.error` message of `hookTextPre` (`fetch.ts` line 88). -/
def textReqErrMsg : String :=
  "UPL: Tried to hook text fetch request but body is not a string!"

/-- `console.error` message of the `Request`-body read failure
(`fetch.ts` line 190). -/
def requestBodyErrMsg : String :=
  "UPL: Failed to get body from Request object"

/-- Run one pre-callback on the current ambient `input`/`init`
(`callback(input, init, original)`, `fetch.ts` line 219). The
`PreCb.textPre` case is the wrapper registered by `hookTextPre`
(`fetch.ts` lines 86–108): a present non-string body is logged with
`console.error` and the raw continuation is called on the unmodified
arguments; otherwise the promise executor runs. -/
def runPreCb (net : Net) (cb : PreCb) (st : PipeState) : PResult :=
  match cb with
  | .short b =>
      let (r, st') := freshResponse b st
      .ok r st'
  | .hang => .hang st
  | .mutate f =>
      let (i', ii') := f st.input st.init
      let (r, st') := callOriginal net i' ii' st
      .ok r st'
  | .throwErr e => .rejected e st
  | .textPre t =>
      if hasNonTextBody st.init then
        let st₁ := { st with errLog := st.errLog ++ [textReqErrMsg] }
        let (r, st') := callOriginal net st₁.input st₁.init st₁
        .ok r st'
      else runTextPreBody net t st

/-- The promise chain built by the `for` loop over `entry.pre_callback`
(`fetch.ts` lines 210–221): each callback is chained with `.then` onto
the previous promise, so it runs only once the previous promise has
resolved, receives the current ambient arguments, and its own settled
value feeds the next link. A rejection or a never-settling link stops
the chain. The `Response` argument is the previous link's value, which
the source ignores. -/
def runPreCbs (net : Net) : List PreCb → Response → PipeState → PResult
  | [], r, st => .ok r st
  | cb :: rest, _, st =>
      match runPreCb net cb st with
      | .ok r st' => runPreCbs net rest r st'
      | .rejected e st' => .rejected e st'
      | .hang st' => .hang st'

/-- `response.clone()`: fresh physical identity, same underlying body
stream, and the native `text` accessor (a JS own-property override on
the source object is not copied by `clone()`). -/
def cloneResp (r : Response) (nid : Nat) : Response × Nat :=
  ({ id := nid, bodyText := r.bodyText }, nid + 1)

/-- Apply a text post-callback to the body text it is shown. -/
def applyTextPost : TextPostCb → String → String
  | .identity, s => s
  | .transform f, s => f s

/-- `applyNextPostCallback` (`fetch.ts` lines 230–244 and 257–270):
each post-callback receives the shared cloned response and a
continuation that runs the next callback; a callback that does not call
its continuation stops the chain. The `PostCb.textPost` case is the
wrapper registered by `hookTextPost` (`fetch.ts` lines 117–132): it
clones the shared response once more (reading the underlying stream),
overrides the shared response's `text` accessor to resolve with the
user callback's output on that text, and then calls the continuation.
Returns the final state of the shared cloned response and the id
counter. -/
def runPostChain : List PostCb → Response → Nat → Response × Nat
  | [], c, nid => (c, nid)
  | .mutate f callNext :: rest, c, nid =>
      if callNext then runPostChain rest (f c) nid else (f c, nid)
  | .textPost t :: rest, c, nid =>
      let (oc, nid') := cloneResp c nid
      runPostChain rest { c with textOverride := some (applyTextPost t oc.bodyText) } nid'

/-- The URL-normalization prologue of `hookedFetch`
(`fetch.ts` lines 157–197): the derived URL string, the possibly
reassigned `input`/`init`, and any `console.error` output. For a
`Request` object the source copies `headers` and `method`
unconditionally (both are always truthy on a `Request`), reads the body
as text for non-GET/HEAD methods (skipping empty text, logging a read
failure), and replaces `input` by the URL string. -/
structure NormResult where
  url : String
  input : FetchInput
  init : Option ReqInit
  errLog : List String
deriving DecidableEq

/-- See `NormResult`. -/
def normalizeInput (input : FetchInput) (init : Option ReqInit) : NormResult :=
  match input with
  | .str s => ⟨s, input, init, []⟩
  | .url s => ⟨s, input, init, []⟩
  | .request r =>
      let ii₀ : ReqInit := init.getD {}
      let ii₁ : ReqInit := { ii₀ with headers := some r.headers, method := some r.method }
      let body_step : ReqInit × List String :=
        if r.method ≠ "GET" ∧ r.method ≠ "HEAD" then
          match r.textResult with
          | .ok b => (if b ≠ "" then { ii₁ with body := some (.text b) } else ii₁, [])
          | .failed => (ii₁, [requestBodyErrMsg])
        else (ii₁, [])
      ⟨r.url, .str r.url, some body_step.1, body_step.2⟩
  | .other s => ⟨s, input, init, []⟩

/-- `hookedFetch` (`fetch.ts` lines 157–275): normalize the input,
resolve the entry, and run the pipeline. With pre-callbacks present the
source first fires `_originalFetch` unconditionally
(`Promise.resolve(_originalFetch(input, init))`, line 206) and then
chains the callbacks onto that promise; after the chain resolves, the
post-callbacks run on a clone of its response but the *unchanged*
response is returned (line 247). Without pre-callbacks the transport is
called once, the post-callbacks run on a clone, and the *clone* is
returned (line 271). -/
def hookedFetch (net : Net) (reg : Registry) (input₀ : FetchInput) (init₀ : Option ReqInit) :
    PResult :=
  let n := normalizeInput input₀ init₀
  let st₀ : PipeState := { input := n.input, init := n.init, errLog := n.errLog }
  match findMatchingEntry reg n.url with
  | none =>
      let (r, st) := transportCall net st₀
      .ok r st
  | some entry =>
      if entry.pre_callback.length > 0 then
        let (r0, st₁) := transportCall net st₀
        match runPreCbs net entry.pre_callback r0 st₁ with
        | .ok response st₂ =>
            if entry.post_callback.length > 0 then
              let (clone, nid₁) := cloneResp response st₂.nextId
              let (_, nid₂) := runPostChain entry.post_callback clone nid₁
              .ok response { st₂ with nextId := nid₂ }
            else .ok response st₂
        | .rejected e st₂ => .rejected e st₂
        | .hang st₂ => .hang st₂
      else
        let (response, st₁) := transportCall net st₀
        if entry.post_callback.length > 0 then
          let (clone, nid₁) := cloneResp response st₁.nextId
          let (clone', nid₂) := runPostChain entry.post_callback clone nid₁
          .ok clone' { st₁ with nextId := nid₂ }
        else .ok response st₁

/-- The trace of transport invocations observable from an outcome. -/
def traceOf : PResult → List (FetchInput × Option ReqInit)
  | .ok _ s => s.trace
  | .rejected _ s => s.trace
  | .hang s => s.trace

/-- The `console.error` log observable from an outcome. -/
def errLogOf : PResult → List String
  | .ok _ s => s.errLog
  | .rejected _ s => s.errLog
  | .hang s => s.errLog

/-- The response delivered to the original caller, if the promise
resolved. -/
def respOf : PResult → Option Response
  | .ok r _ => some r
  | _ => none

/-- Whether the promise rejected. -/
def isRejected : PResult → Bool
  | .rejected _ _ => true
  | _ => false

/-- Well-formedness of the registry tables: at most one entry per exact
string and at most one per distinct pattern source representation. -/
def registryWF (st : Registry) : Prop :=
  (st.entriesText.map Prod.fst).Nodup ∧
  (st.entriesRegex.map (fun x => x.1.source)).Nodup

/- Concrete scenario states used to evaluate the pipeline. -/

/-- Two pre-callbacks on `/a`: the first never settles and never calls
its continuation, the second resolves with a mock. -/
def regC1a : Registry :=
  (hookPre (.str "/a") (.short "mockB") (hookPre (.str "/a") .hang emptyRegistry).2).2

/-- Two pre-callbacks on `/a`: the first resolves with a mock response
without calling its continuation, the second likewise. -/
def regC1b : Registry :=
  (hookPre (.str "/a") (.short "mockB") (hookPre (.str "/a") (.short "mockA") emptyRegistry).2).2

/-- Pre-callback A of the ordering scenario: sets `method: 'POST'` and
calls its continuation exactly once. -/
def mutA : FetchInput → Option ReqInit → FetchInput × Option ReqInit :=
  fun i ii => (i, some { ii.getD {} with method := some "POST" })

/-- Pre-callback B of the ordering scenario: sets `body: 'x'` and calls
its continuation exactly once. -/
def mutB : FetchInput → Option ReqInit → FetchInput × Option ReqInit :=
  fun i ii => (i, some { ii.getD {} with body := some (.text "x") })

/-- `hookPre('/a', A)` then `hookPre('/a', B)`, A and B each invoking
their continuation exactly once with the mutations above. -/
def regC2 : Registry :=
  (hookPre (.str "/a") (.mutate mutB) (hookPre (.str "/a") (.mutate mutA) emptyRegistry).2).2

/-- An identity pre-callback plus a `hookTextPost` that appends `"!"`
to the response text on `/a`. -/
def regC3 : Registry :=
  (hookTextPost (.str "/a") (.transform (fun s => s ++ "!"))
    (hookPre (.str "/a") (.mutate (fun i ii => (i, ii))) emptyRegistry).2).2

/-- The same `hookTextPost` with no pre-callback registered. -/
def regC3b : Registry :=
  (hookTextPost (.str "/a") (.transform (fun s => s ++ "!")) emptyRegistry).2

/-- A textual request body for the round-trip scenario. -/
def iiC4 : ReqInit := { body := some (.text "hi") }

/-- The identity text round-trip:
`hookTextPre('/t', (b, orig) => orig(b))` composed with
`hookTextPost('/t', (b, orig) => orig(b))`. -/
def regC4 : Registry :=
  (hookTextPost (.str "/t") .identity (hookTextPre (.str "/t") .identity emptyRegistry).2).2

/-- A present, non-textual request body. -/
def iiC6 : ReqInit := { body := some (.binary 7) }

/-- A single identity text pre-hook on `/b`. -/
def regC6 : Registry := (hookTextPre (.str "/b") .identity emptyRegistry).2

/-- The intercepted call of the body-type-mismatch scenario. -/
def runC6 : PResult := hookedFetch (fun _ _ => "resp") regC6 (.str "/b") (some iiC6)

/-- A registry with one exact entry for the duplication scenario. -/
def regC8 : Registry := (hookPre (.str "/w") (.short "a") emptyRegistry).2

/-- A pattern used in the resolution-order scenario. -/
def patC9 : Pattern := { source := "/y/", test := fun u => u == "/y" }

/-- Entry resolved by the exact string `/a` in the resolution scenario. -/
def entryC9a : HookEntry := { pre_callback := [.short "A"], post_callback := [] }

/-- Entry resolved by the pattern in the resolution scenario. -/
def entryC9b : HookEntry := { pre_callback := [.short "B"], post_callback := [] }

/-- Registry of the resolution-order scenario: one exact entry, one
pattern entry. -/
def regC9 : Registry :=
  { entriesText := [("/a", entryC9a)], entriesRegex := [(patC9, entryC9b)] }

/-! ## Helper lemmas -/

theorem triggerInit_onceFired (st : Registry) : (triggerInit st).onceFired = true := by
  unfold triggerInit
  split
  · assumption
  · rfl

theorem triggerInit_installCount (st : Registry) :
    (triggerInit st).installCount =
      if st.onceFired then st.installCount else st.installCount + 1 := by
  unfold triggerInit
  split <;> simp_all

theorem triggerInit_entriesText (st : Registry) :
    (triggerInit st).entriesText = st.entriesText := by
  unfold triggerInit
  split <;> rfl

theorem triggerInit_entriesRegex (st : Registry) :
    (triggerInit st).entriesRegex = st.entriesRegex := by
  unfold triggerInit
  split <;> rfl

theorem hookPre_onceFired (ep : Endpoint) (cb : PreCb) (st : Registry) :
    (hookPre ep cb st).2.onceFired = true ∧
    (hookPre ep cb st).2.installCount = (triggerInit st).installCount := by
  cases ep with
  | str s =>
      cases h : mapGet (triggerInit st).entriesText s <;>
        simp [hookPre, h, triggerInit_onceFired]
  | pattern p =>
      cases h : regexGet (triggerInit st).entriesRegex p.source <;>
        simp [hookPre, h, triggerInit_onceFired]
  | invalid tag => simp [hookPre, triggerInit_onceFired]

theorem hookPost_onceFired (ep : Endpoint) (cb : PostCb) (st : Registry) :
    (hookPost ep cb st).2.onceFired = true ∧
    (hookPost ep cb st).2.installCount = (triggerInit st).installCount := by
  cases ep with
  | str s =>
      cases h : mapGet (triggerInit st).entriesText s <;>
        simp [hookPost, h, triggerInit_onceFired]
  | pattern p =>
      cases h : regexGet (triggerInit st).entriesRegex p.source <;>
        simp [hookPost, h, triggerInit_onceFired]
  | invalid tag => simp [hookPost, triggerInit_onceFired]

theorem applyReg_onceFired (st : Registry) (c : RegCall) :
    (applyReg st c).onceFired = true ∧
    (applyReg st c).installCount = (triggerInit st).installCount := by
  cases c with
  | pre ep cb => exact hookPre_onceFired ep cb st
  | post ep cb => exact hookPost_onceFired ep cb st
  | textPre ep t => exact hookPre_onceFired ep (.textPre t) st
  | textPost ep t => exact hookPost_onceFired ep (.textPost t) st

theorem foldl_installCount (calls : List RegCall) (st : Registry)
    (h : st.onceFired = true) :
    (calls.foldl applyReg st).onceFired = true ∧
    (calls.foldl applyReg st).installCount = st.installCount := by
  induction calls generalizing st with
  | nil => exact ⟨h, rfl⟩
  | cons c rest ih =>
      rw [List.foldl_cons]
      have h1 := applyReg_onceFired st c
      have h2 : (applyReg st c).installCount = st.installCount := by
        rw [h1.2, triggerInit_installCount, if_pos h]
      obtain ⟨ha, hb⟩ := ih (applyReg st c) h1.1
      exact ⟨ha, by rw [hb, h2]⟩

theorem mapGet_none_not_mem (m : List (String × HookEntry)) (k : String)
    (h : mapGet m k = none) : k ∉ m.map Prod.fst := by
  induction m with
  | nil => simp
  | cons kv rest ih =>
      obtain ⟨k', v⟩ := kv
      rw [mapGet] at h
      by_cases hk : k' = k
      · rw [if_pos hk] at h
        cases h
      · rw [if_neg hk] at h
        simp only [List.map_cons, List.mem_cons]
        rintro (rfl | hmem)
        · exact hk rfl
        · exact ih h hmem

theorem mapUpdate_keys (m : List (String × HookEntry)) (k : String) (v : HookEntry) :
    (mapUpdate m k v).map Prod.fst = m.map Prod.fst := by
  induction m with
  | nil => rfl
  | cons kv rest ih =>
      obtain ⟨k', v'⟩ := kv
      rw [mapUpdate]
      by_cases hk : k' = k
      · rw [if_pos hk]
        simp
      · rw [if_neg hk]
        simp only [List.map_cons, ih]

theorem mapGet_mapUpdate_self (m : List (String × HookEntry)) (k : String)
    (v e : HookEntry) (h : mapGet m k = some e) :
    mapGet (mapUpdate m k v) k = some v := by
  induction m with
  | nil => cases h
  | cons kv rest ih =>
      obtain ⟨k', v'⟩ := kv
      rw [mapGet] at h
      rw [mapUpdate]
      by_cases hk : k' = k
      · rw [if_pos hk, mapGet, if_pos hk]
      · rw [if_neg hk] at h
        rw [if_neg hk, mapGet, if_neg hk]
        exact ih h

theorem regexGet_none_not_mem (l : List (Pattern × HookEntry)) (src : String)
    (h : regexGet l src = none) : src ∉ l.map (fun x => x.1.source) := by
  induction l with
  | nil => simp
  | cons pe rest ih =>
      obtain ⟨p, e⟩ := pe
      rw [regexGet] at h
      by_cases hp : p.source = src
      · rw [if_pos hp] at h
        cases h
      · rw [if_neg hp] at h
        simp only [List.map_cons, List.mem_cons]
        rintro (rfl | hmem)
        · exact hp rfl
        · exact ih h hmem

theorem regexUpdate_sources (l : List (Pattern × HookEntry)) (src : String) (v : HookEntry) :
    (regexUpdate l src v).map (fun x => x.1.source) = l.map (fun x => x.1.source) := by
  induction l with
  | nil => rfl
  | cons pe rest ih =>
      obtain ⟨p, e⟩ := pe
      rw [regexUpdate]
      by_cases hp : p.source = src
      · rw [if_pos hp]
        simp
      · rw [if_neg hp]
        simp only [List.map_cons, ih]

theorem regexGet_regexUpdate_self (l : List (Pattern × HookEntry)) (src : String)
    (v : HookEntry) (q : Pattern) (e : HookEntry) (h : regexGet l src = some (q, e)) :
    regexGet (regexUpdate l src v) src = some (q, v) := by
  induction l with
  | nil => cases h
  | cons pe rest ih =>
      obtain ⟨p, e'⟩ := pe
      rw [regexGet] at h
      rw [regexUpdate]
      by_cases hp : p.source = src
      · rw [if_pos hp] at h
        rw [if_pos hp, regexGet, if_pos hp]
        cases h
        rfl
      · rw [if_neg hp] at h
        rw [if_neg hp, regexGet, if_neg hp]
        exact ih h

theorem nodup_append_single {α : Type} (l : List α) (a : α) (h : l.Nodup) (ha : a ∉ l) :
    (l ++ [a]).Nodup := by
  simp [List.nodup_append, h, ha]

theorem triggerInit_WF (st : Registry) (h : registryWF st) : registryWF (triggerInit st) := by
  unfold registryWF at h ⊢
  rw [triggerInit_entriesText, triggerInit_entriesRegex]
  exact h

theorem hookPre_WF (ep : Endpoint) (cb : PreCb) (st : Registry) (h : registryWF st) :
    registryWF (hookPre ep cb st).2 := by
  have hT := triggerInit_entriesText st
  have hR := triggerInit_entriesRegex st
  obtain ⟨h1, h2⟩ := h
  cases ep with
  | str s =>
      cases hm : mapGet (triggerInit st).entriesText s with
      | none =>
          refine ⟨?_, ?_⟩ <;> simp only [hookPre, hm, registryWF]
          · rw [List.map_append, hT]
            exact nodup_append_single _ _ h1 (by rw [← hT]; exact mapGet_none_not_mem _ _ hm)
          · rw [hR]; exact h2
      | some e =>
          refine ⟨?_, ?_⟩ <;> simp only [hookPre, hm, registryWF]
          · rw [mapUpdate_keys, hT]; exact h1
          · rw [hR]; exact h2
  | pattern p =>
      cases hm : regexGet (triggerInit st).entriesRegex p.source with
      | none =>
          refine ⟨?_, ?_⟩ <;> simp only [hookPre, hm, registryWF]
          · rw [hT]; exact h1
          · rw [List.map_append, hR]
            exact nodup_append_single _ _ h2 (by rw [← hR]; exact regexGet_none_not_mem _ _ hm)
      | some pe =>
          refine ⟨?_, ?_⟩ <;> simp only [hookPre, hm, registryWF]
          · rw [hT]; exact h1
          · rw [regexUpdate_sources, hR]; exact h2
  | invalid tag =>
      simp only [hookPre]
      exact ⟨by rw [hT]; exact h1, by rw [hR]; exact h2⟩

theorem hookPost_WF (ep : Endpoint) (cb : PostCb) (st : Registry) (h : registryWF st) :
    registryWF (hookPost ep cb st).2 := by
  have hT := triggerInit_entriesText st
  have hR := triggerInit_entriesRegex st
  obtain ⟨h1, h2⟩ := h
  cases ep with
  | str s =>
      cases hm : mapGet (triggerInit st).entriesText s with
      | none =>
          refine ⟨?_, ?_⟩ <;> simp only [hookPost, hm, registryWF]
          · rw [List.map_append, hT]
            exact nodup_append_single _ _ h1 (by rw [← hT]; exact mapGet_none_not_mem _ _ hm)
          · rw [hR]; exact h2
      | some e =>
          refine ⟨?_, ?_⟩ <;> simp only [hookPost, hm, registryWF]
          · rw [mapUpdate_keys, hT]; exact h1
          · rw [hR]; exact h2
  | pattern p =>
      cases hm : regexGet (triggerInit st).entriesRegex p.source with
      | none =>
          refine ⟨?_, ?_⟩ <;> simp only [hookPost, hm, registryWF]
          · rw [hT]; exact h1
          · rw [List.map_append, hR]
            exact nodup_append_single _ _ h2 (by rw [← hR]; exact regexGet_none_not_mem _ _ hm)
      | some pe =>
          refine ⟨?_, ?_⟩ <;> simp only [hookPost, hm, registryWF]
          · rw [hT]; exact h1
          · rw [regexUpdate_sources, hR]; exact h2
  | invalid tag =>
      simp only [hookPost]
      exact ⟨by rw [hT]; exact h1, by rw [hR]; exact h2⟩

theorem applyReg_WF (st : Registry) (c : RegCall) (h : registryWF st) :
    registryWF (applyReg st c) := by
  cases c with
  | pre ep cb => exact hookPre_WF ep cb st h
  | post ep cb => exact hookPost_WF ep cb st h
  | textPre ep t => exact hookPre_WF ep (.textPre t) st h
  | textPost ep t => exact hookPost_WF ep (.textPost t) st h

theorem foldl_WF (calls : List RegCall) (st : Registry) (h : registryWF st) :
    registryWF (calls.foldl applyReg st) := by
  induction calls generalizing st with
  | nil => exact h
  | cons c rest ih =>
      rw [List.foldl_cons]
      exact ih _ (applyReg_WF st c h)

theorem hookPre_str_append (st : Registry) (s : String) (cb : PreCb) (e : HookEntry)
    (h : mapGet st.entriesText s = some e) :
    (hookPre (.str s) cb st).2.entriesText.map Prod.fst = st.entriesText.map Prod.fst ∧
    mapGet (hookPre (.str s) cb st).2.entriesText s =
      some { e with pre_callback := e.pre_callback ++ [cb] } := by
  have hT := triggerInit_entriesText st
  have hm : mapGet (triggerInit st).entriesText s = some e := by rw [hT]; exact h
  constructor
  · simp only [hookPre, hm]
    rw [mapUpdate_keys, hT]
  · simp only [hookPre, hm]
    rw [hT]
    exact mapGet_mapUpdate_self _ _ _ _ h

theorem hookPost_str_append (st : Registry) (s : String) (cb : PostCb) (e : HookEntry)
    (h : mapGet st.entriesText s = some e) :
    (hookPost (.str s) cb st).2.entriesText.map Prod.fst = st.entriesText.map Prod.fst ∧
    mapGet (hookPost (.str s) cb st).2.entriesText s =
      some { e with post_callback := e.post_callback ++ [cb] } := by
  have hT := triggerInit_entriesText st
  have hm : mapGet (triggerInit st).entriesText s = some e := by rw [hT]; exact h
  constructor
  · simp only [hookPost, hm]
    rw [mapUpdate_keys, hT]
  · simp only [hookPost, hm]
    rw [hT]
    exact mapGet_mapUpdate_self _ _ _ _ h

theorem hookPre_pattern_append (st : Registry) (p : Pattern) (cb : PreCb)
    (pe : Pattern × HookEntry) (h : regexGet st.entriesRegex p.source = some pe) :
    (hookPre (.pattern p) cb st).2.entriesRegex.map (fun x => x.1.source) =
      st.entriesRegex.map (fun x => x.1.source) ∧
    regexGet (hookPre (.pattern p) cb st).2.entriesRegex p.source =
      some (pe.1, { pe.2 with pre_callback := pe.2.pre_callback ++ [cb] }) := by
  have hR := triggerInit_entriesRegex st
  have hm : regexGet (triggerInit st).entriesRegex p.source = some pe := by rw [hR]; exact h
  constructor
  · simp only [hookPre, hm]
    rw [regexUpdate_sources, hR]
  · simp only [hookPre, hm]
    rw [hR]
    exact regexGet_regexUpdate_self _ _ _ pe.1 pe.2 (by rw [← h])

theorem hookPost_pattern_append (st : Registry) (p : Pattern) (cb : PostCb)
    (pe : Pattern × HookEntry) (h : regexGet st.entriesRegex p.source = some pe) :
    (hookPost (.pattern p) cb st).2.entriesRegex.map (fun x => x.1.source) =
      st.entriesRegex.map (fun x => x.1.source) ∧
    regexGet (hookPost (.pattern p) cb st).2.entriesRegex p.source =
      some (pe.1, { pe.2 with post_callback := pe.2.post_callback ++ [cb] }) := by
  have hR := triggerInit_entriesRegex st
  have hm : regexGet (triggerInit st).entriesRegex p.source = some pe := by rw [hR]; exact h
  constructor
  · simp only [hookPost, hm]
    rw [regexUpdate_sources, hR]
  · simp only [hookPost, hm]
    rw [hR]
    exact regexGet_regexUpdate_self _ _ _ pe.1 pe.2 (by rw [← h])

theorem regexFindMatch_eq_none_iff (l : List (Pattern × HookEntry)) (url : String) :
    regexFindMatch l url = none ↔ ∀ pe ∈ l, pe.1.test url = false := by
  induction l with
  | nil => simp [regexFindMatch]
  | cons pe rest ih =>
      obtain ⟨p, e⟩ := pe
      rw [regexFindMatch]
      by_cases hp : p.test url
      · simp [hp]
      · simp [hp, ih]

theorem regexFindMatch_first (l₁ l₂ : List (Pattern × HookEntry)) (p : Pattern)
    (e : HookEntry) (url : String) (hp : p.test url = true)
    (hmiss : ∀ q ∈ l₁, q.1.test url = false) :
    regexFindMatch (l₁ ++ (p, e) :: l₂) url = some e := by
  induction l₁ with
  | nil =>
      rw [List.nil_append, regexFindMatch, if_pos hp]
  | cons q rest ih =>
      obtain ⟨q1, q2⟩ := q
      rw [List.cons_append, regexFindMatch]
      have hq : q1.test url = false := hmiss (q1, q2) (List.mem_cons_self _ _)
      rw [if_neg (by simp [hq])]
      exact ih (fun x hx => hmiss x (List.mem_cons_of_mem _ hx))

/-! ## Claim theorems -/

/-- C5: for every request whose normalized URL matches no registered
matcher, `hookedFetch` invokes the real transport exactly once (hence at
most once) on the normalized arguments and resolves with that
invocation's response unchanged (no overridden accessor, the body the
network produced, the only log lines being the normalization's own);
moreover for a plain string input the normalization is the identity, so
the transport receives exactly the caller's arguments and the outcome is
indistinguishable from the uninstrumented transport call. -/
theorem noMatch_transparent (net : Net) (reg : Registry) (input : FetchInput)
    (init : Option ReqInit)
    (h : findMatchingEntry reg (normalizeInput input init).url = none) :
    hookedFetch net reg input init =
      .ok { id := 0,
            bodyText := net (normalizeInput input init).input (normalizeInput input init).init }
        { input := (normalizeInput input init).input,
          init := (normalizeInput input init).init,
          trace := [((normalizeInput input init).input, (normalizeInput input init).init)],
          nextId := 1,
          errLog := (normalizeInput input init).errLog } ∧
    (∀ s, input = .str s →
      (normalizeInput input init).input = input ∧ (normalizeInput input init).init = init) := by
  constructor
  · simp only [hookedFetch, h, transportCall, freshResponse]
    rfl
  · rintro s rfl
    exact ⟨rfl, rfl⟩

/-- Witness for C5: a GET of `/x` against the empty registry is a single
pass-through transport call. -/
theorem noMatch_transparent_witness :
    hookedFetch (fun _ _ => "ok") emptyRegistry (.str "/x") none =
      .ok { id := 0, bodyText := "ok" }
        { input := .str "/x", init := none, trace := [(.str "/x", none)],
          nextId := 1, errLog := [] } ∧
    (∀ s, FetchInput.str "/x" = .str s →
      (normalizeInput (.str "/x") none).input = .str "/x" ∧
      (normalizeInput (.str "/x") none).init = none) :=
  noMatch_transparent (fun _ _ => "ok") emptyRegistry (.str "/x") none rfl

/-- C7: any non-empty sequence of calls to the public registration
functions (`hookPre`, `hookPost`, `hookTextPre`, `hookTextPost`), in any
order and with any endpoints, leaves the transport substituted exactly
once: the one-shot trigger fires on the first call and never again. -/
theorem install_once (calls : List RegCall) (h : calls ≠ []) :
    (calls.foldl applyReg emptyRegistry).installCount = 1 := by
  cases calls with
  | nil => exact absurd rfl h
  | cons c rest =>
      rw [List.foldl_cons]
      have h1 := applyReg_onceFired emptyRegistry c
      have h2 : (applyReg emptyRegistry c).installCount = 1 := by
        rw [h1.2, triggerInit_installCount]
        rfl
      rw [(foldl_installCount rest _ h1.1).2, h2]

/-- Witness for C7: one `hookPre` registration installs exactly once. -/
theorem install_once_witness :
    ([RegCall.pre (.str "/w") (.short "m")].foldl applyReg emptyRegistry).installCount = 1 :=
  install_once [RegCall.pre (.str "/w") (.short "m")] (List.cons_ne_nil _ _)

/-- C8: after any sequence of registrations from the empty registry, the
tables hold at most one entry per distinct exact string and at most one
per distinct pattern source representation; and for each of `hookPre`
and `hookPost`, registering against an already-registered exact string
or pattern leaves the key/source lists unchanged (no duplicate entry)
and appends the callback at the end of the existing entry's
corresponding list. -/
theorem registry_unique_entries :
    (∀ calls : List RegCall, registryWF (calls.foldl applyReg emptyRegistry)) ∧
    (∀ st s cb e, mapGet st.entriesText s = some e →
      (hookPre (.str s) cb st).2.entriesText.map Prod.fst = st.entriesText.map Prod.fst ∧
      mapGet (hookPre (.str s) cb st).2.entriesText s =
        some { e with pre_callback := e.pre_callback ++ [cb] }) ∧
    (∀ st s cb e, mapGet st.entriesText s = some e →
      (hookPost (.str s) cb st).2.entriesText.map Prod.fst = st.entriesText.map Prod.fst ∧
      mapGet (hookPost (.str s) cb st).2.entriesText s =
        some { e with post_callback := e.post_callback ++ [cb] }) ∧
    (∀ st p cb pe, regexGet st.entriesRegex p.source = some pe →
      (hookPre (.pattern p) cb st).2.entriesRegex.map (fun x => x.1.source) =
        st.entriesRegex.map (fun x => x.1.source) ∧
      regexGet (hookPre (.pattern p) cb st).2.entriesRegex p.source =
        some (pe.1, { pe.2 with pre_callback := pe.2.pre_callback ++ [cb] })) ∧
    (∀ st p cb pe, regexGet st.entriesRegex p.source = some pe →
      (hookPost (.pattern p) cb st).2.entriesRegex.map (fun x => x.1.source) =
        st.entriesRegex.map (fun x => x.1.source) ∧
      regexGet (hookPost (.pattern p) cb st).2.entriesRegex p.source =
        some (pe.1, { pe.2 with post_callback := pe.2.post_callback ++ [cb] })) :=
  ⟨fun calls => foldl_WF calls emptyRegistry ⟨List.nodup_nil, List.nodup_nil⟩,
   fun st s cb e h => hookPre_str_append st s cb e h,
   fun st s cb e h => hookPost_str_append st s cb e h,
   fun st p cb pe h => hookPre_pattern_append st p cb pe h,
   fun st p cb pe h => hookPost_pattern_append st p cb pe h⟩

/-- Witness for C8: re-registering on `/w` appends to the existing
entry's pre-callback list. -/
theorem registry_unique_entries_witness :
    mapGet (hookPre (.str "/w") (.short "b") regC8).2.entriesText "/w" =
      some { pre_callback := [.short "a", .short "b"], post_callback := [] } := by
  have h := registry_unique_entries.2.1 regC8 "/w" (.short "b")
      { pre_callback := [.short "a"], post_callback := [] } (by rfl)
  exact h.2

/-- C9: resolution tries the exact-string table first (an exact hit is
returned without consulting patterns); on an exact miss it equals the
first-match scan over the pattern entries in list (registration) order,
so the first matching pattern's entry wins; and it returns `none`
exactly when the exact lookup misses and no pattern entry matches. -/
theorem resolve_precedence (reg : Registry) (url : String) :
    (∀ e, mapGet reg.entriesText url = some e → findMatchingEntry reg url = some e) ∧
    (mapGet reg.entriesText url = none →
      findMatchingEntry reg url = regexFindMatch reg.entriesRegex url) ∧
    (∀ l₁ p e l₂, mapGet reg.entriesText url = none →
      reg.entriesRegex = l₁ ++ (p, e) :: l₂ → p.test url = true →
      (∀ q ∈ l₁, q.1.test url = false) → findMatchingEntry reg url = some e) ∧
    (findMatchingEntry reg url = none ↔
      mapGet reg.entriesText url = none ∧
      ∀ pe ∈ reg.entriesRegex, pe.1.test url = false) := by
  refine ⟨?_, ?_, ?_, ?_⟩
  · intro e h
    simp [findMatchingEntry, h]
  · intro h
    simp [findMatchingEntry, h]
  · intro l₁ p e l₂ h hsplit hp hmiss
    simp only [findMatchingEntry, h]
    rw [hsplit]
    exact regexFindMatch_first l₁ l₂ p e url hp hmiss
  · cases hm : mapGet reg.entriesText url with
    | none => simp [findMatchingEntry, hm, regexFindMatch_eq_none_iff]
    | some e => simp [findMatchingEntry, hm]

/-- Witness for C9: on the two-entry registry, `/a` resolves through the
exact table and `/y` through the first matching pattern. -/
theorem resolve_precedence_witness :
    findMatchingEntry regC9 "/a" = some entryC9a ∧
    findMatchingEntry regC9 "/y" = some entryC9b :=
  ⟨(resolve_precedence regC9 "/a").1 entryC9a (by rfl),
   (resolve_precedence regC9 "/y").2.2.1 [] patC9 entryC9b [] (by rfl) (by rfl) (by rfl)
     (by simp)⟩

/-- C10: registering with an endpoint that is neither a string nor a
`RegExp` throws a synchronous `TypeError` from both `hookPre` and
`hookPost`, yet the resulting module state is exactly `triggerInit st`:
the one-shot trigger has already fired (so on a fresh registry the
transport is substituted — `installCount` increments), while both entry
tables are left unchanged by the failed call. -/
theorem invalid_endpoint_installs (st : Registry) (cb : PreCb) (pc : PostCb) (tag : String) :
    (hookPre (.invalid tag) cb st).1 = .error .typeError ∧
    (hookPost (.invalid tag) pc st).1 = .error .typeError ∧
    (hookPre (.invalid tag) cb st).2 = triggerInit st ∧
    (hookPost (.invalid tag) pc st).2 = triggerInit st ∧
    (triggerInit st).onceFired = true ∧
    (triggerInit st).entriesText = st.entriesText ∧
    (triggerInit st).entriesRegex = st.entriesRegex ∧
    (triggerInit st).installCount =
      (if st.onceFired then st.installCount else st.installCount + 1) :=
  ⟨rfl, rfl, rfl, rfl, triggerInit_onceFired st, triggerInit_entriesText st,
   triggerInit_entriesRegex st, triggerInit_installCount st⟩

/-- C6 (amended): when the request body is present and not textual, the
pre-callback registered by `hookTextPre` does not reject — for every
network, pipeline state and user callback it logs the type-error message
with `console.error` and falls back to invoking its continuation (the
real transport) on the unmodified request, resolving with that
response. -/
theorem textPre_nontext_fallback (net : Net) (st : PipeState) (ii : ReqInit) (n : Nat)
    (t : TextPreCb) :
    runPreCb net (.textPre t) { st with init := some { ii with body := some (.binary n) } } =
      .ok { id := st.nextId,
            bodyText := net st.input (some { ii with body := some (.binary n) }) }
        { st with init := some { ii with body := some (.binary n) },
                  errLog := st.errLog ++ [textReqErrMsg],
                  trace := st.trace ++ [(st.input, some { ii with body := some (.binary n) })],
                  nextId := st.nextId + 1 } := by
  rfl

/-- C6 (counterexample): with an identity text pre-hook on `/b` and a
non-string body, the intercepted call resolves (is not rejected),
logging the type error and forwarding the unmodified request — refuting
the claim that the callback rejects with a type error. -/
theorem textPre_nontext_no_reject :
    isRejected runC6 = false ∧ errLogOf runC6 = [textReqErrMsg] ∧
    traceOf runC6 = [(.str "/b", some iiC6), (.str "/b", some iiC6)] :=
  ⟨rfl, rfl, rfl⟩

/-- C1: the pre-chain does not short-circuit as claimed. With two
pre-callbacks A, B on `/a` where A never invokes its continuation: if A
never settles, the transport has nevertheless been invoked once (the
unconditional initial `_originalFetch` of line 206); if A resolves with
a mock without invoking its continuation, B is invoked as well (the
caller receives B's mock) while the transport still fired its initial
call. The claim required that neither B nor the transport ever run. -/
theorem preChain_shortCircuit_fails :
    traceOf (hookedFetch (fun _ _ => "net") regC1a (.str "/a") none) = [(.str "/a", none)] ∧
    respOf (hookedFetch (fun _ _ => "net") regC1b (.str "/a") none) =
      some { id := 2, bodyText := "mockB" } ∧
    traceOf (hookedFetch (fun _ _ => "net") regC1b (.str "/a") none) = [(.str "/a", none)] :=
  ⟨rfl, rfl, rfl⟩

/-- C2: with pre-callbacks A (sets `method: 'POST'`) then B (sets
`body: 'x'`), each invoking its continuation exactly once, the real
transport is invoked three times: once with the unmodified request
(the unconditional initial call), once with A's mutation, and once with
A's and B's mutations. The claim required a single invocation carrying
the A-then-B-mutated request and nothing else. -/
theorem preChain_ordering_fails :
    traceOf (hookedFetch (fun _ _ => "net") regC2 (.str "/a") none) =
      [(.str "/a", none),
       (.str "/a", some { method := some "POST" }),
       (.str "/a", some { method := some "POST", body := some (.text "x") })] :=
  rfl

/-- C3: in the path with pre-callbacks present, the caller receives the
original response (no overridden accessor, original body) even though
the post-callback chain did mutate the clone (second conjunct: the
discarded clone carries the override); in the no-pre-callback path the
mutated clone *is* returned (third conjunct). The claim required the
mutated clone in both paths. -/
theorem postClone_not_returned :
    respOf (hookedFetch (fun _ _ => "hello") regC3 (.str "/a") none) =
      some { id := 1, bodyText := "hello", textOverride := none } ∧
    (runPostChain [PostCb.textPost (.transform (fun s => s ++ "!"))]
        { id := 2, bodyText := "hello" } 3).1 =
      { id := 2, bodyText := "hello", textOverride := some "hello!" } ∧
    respOf (hookedFetch (fun _ _ => "hello") regC3b (.str "/a") none) =
      some { id := 1, bodyText := "hello", textOverride := some "hello!" } :=
  ⟨rfl, rfl, rfl⟩

/-- C4: the identity text round-trip
(`hookTextPre` + `hookTextPost`, both forwarding unchanged) does leave
the request content and the caller-observed body byte-identical, but the
transport is invoked twice with the original request — the traffic
contains a duplicate exchange, so it is not byte-for-byte unchanged. -/
theorem textRoundTrip_double_invoke :
    traceOf (hookedFetch (fun _ _ => "resp") regC4 (.str "/t") (some iiC4)) =
      [(.str "/t", some iiC4), (.str "/t", some iiC4)] ∧
    (respOf (hookedFetch (fun _ _ => "resp") regC4 (.str "/t") (some iiC4))).map readText =
      some "resp" :=
  ⟨rfl, rfl⟩

end UPL
